import Mathlib

/-!
# Verification of the claudia agent-run transcript viewer core

Shallow embedding of the transcript-viewer core of the repository:

* `src/components/AgentExecution.tsx` — execution view: message filter
  (`displayableMessages`), virtualized rendering (`useVirtualizer`), stop
  control (`handleStop`), JSONL/Markdown exports.
* `src/components/AgentRunOutputViewer.tsx` — run-output modal: cache-aware
  loading (`loadOutput`), live event listeners (`setupLiveEventListeners`),
  scroll handling (`handleScroll`/`scrollToBottom`).

JavaScript values are embedded as follows: JS strings are `String`, JS
numbers that the code treats as integral counts (tokens, milliseconds,
indices) are `Nat` (or `Int` where differences occur), optional/possibly
`undefined` fields are `Option`, and the opaque platform primitive
`JSON.parse` is a parameter `parse : String → Option StreamMessage`
(returning `none` where `JSON.parse` would throw).
-/

namespace Claudia

/-- Token usage object `{ input_tokens, output_tokens }` as read by the
components (`msg.message.usage` / `msg.usage`). -/
structure Usage where
  input_tokens : Nat
  output_tokens : Nat
deriving DecidableEq

/-- One element of a message's `content` array, as discriminated by the
`content.type` string in both `displayableMessages` filters and the
Markdown exporters.  `tool_use` carries `id`, `name` and (for the Markdown
export) the `JSON.stringify(content.input, null, 2)` text of its `input`;
`tool_result` carries `tool_use_id` and `content`.  Fields that may be
`undefined` in the JS objects are `Option`.  Blocks with any other `type`
tag are collapsed into `other`, since the code only ever tests
`content.type` against these literals. -/
inductive ContentBlock where
  | text (text : String)
  | tool_use (id : Option String) (name : Option String) (inputJson : String)
  | tool_result (tool_use_id : Option String) (content : String)
  | other (ty : String)
deriving DecidableEq

/-- The `msg.message.content` value.  In JS it can be `undefined`/`null`
(`absent`), a plain string, or an array of blocks; the code distinguishes
these via truthiness and `Array.isArray`. -/
inductive MsgContent where
  | absent
  | str (s : String)
  | blocks (bs : List ContentBlock)
deriving DecidableEq

/-- The `message` sub-object `{ content?, usage? }` of a stream message. -/
structure MessageBody where
  content : MsgContent := .absent
  usage : Option Usage := none
deriving DecidableEq

/-- `ClaudeStreamMessage` (AgentExecution.tsx, lines 44-59): a parsed JSONL
event.  The interface is open (`[key: string]: any`); the fields below are
exactly those the embedded code reads.  Numeric fields that the code only
ever treats as counts (`duration_ms`, `num_turns`, the token counts) are
`Nat`; `cost_usd` is kept abstract as a `Nat` of events' raw value since only
its formatted rendering, abstracted as a parameter, is ever used. -/
structure StreamMessage where
  type : String
  subtype : Option String := none
  isMeta : Bool := false
  leafUuid : Option String := none
  summary : Option String := none
  message : Option MessageBody := none
  usage : Option Usage := none
  is_error : Bool := false
  result : Option String := none
  error : Option String := none
  session_id : Option String := none
  model : Option String := none
  cwd : Option String := none
  tools : Option (List String) := none
  cost_usd : Option Nat := none
  duration_ms : Option Nat := none
  num_turns : Option Nat := none
deriving DecidableEq

/-- JS truthiness of an optional string field (`undefined` and `""` are
falsy, every other string is truthy). -/
def jsTruthy (o : Option String) : Bool :=
  match o with
  | some s => s ≠ ""
  | none => false

/-- JS `String.prototype.toLowerCase`, modelled character-wise (the tool
names involved are ASCII, where `Char.toLower` agrees with JS). -/
def jsToLower (s : String) : String :=
  String.mk (s.data.map Char.toLower)

/-- JS `String.prototype.startsWith`, modelled on the character list. -/
def jsStartsWith (s pre : String) : Bool :=
  pre.data.isPrefixOf s.data

/-- The widget tool-name list of `displayableMessages`
(AgentExecution.tsx, lines 133-136; AgentRunOutputViewer.tsx, line 338). -/
def toolsWithWidgets : List String :=
  ["task", "edit", "multiedit", "todowrite", "ls", "read",
   "glob", "bash", "write", "grep"]

/-- `toolsWithWidgets.includes(toolName) || toolUse.name?.startsWith('mcp__')`
(AgentExecution.tsx, line 137) where `toolName = toolUse.name?.toLowerCase()`:
a `undefined` name is in neither branch (`includes(undefined)` is false and
the optional-chained `startsWith` is `undefined`, hence falsy). -/
def isSelfRenderingName (name : Option String) : Bool :=
  (match name with
   | some n => toolsWithWidgets.contains (jsToLower n)
   | none => false)
  ||
  (match name with
   | some n => jsStartsWith n "mcp__"
   | none => false)

/-- `c.type === 'tool_use' && c.id === tid` for the block search inside the
backward scan (AgentExecution.tsx, lines 128-130).  `tid` is the (truthy)
`content.tool_use_id` string; a block whose `id` is `undefined` never
matches. -/
def isToolUseWithId (tid : String) (b : ContentBlock) : Bool :=
  match b with
  | .tool_use id _ _ => id = some tid
  | _ => false

/-- The `name` of a `tool_use` block (used after a successful match). -/
def nameOfBlock : ContentBlock → Option String
  | .tool_use _ n _ => n
  | _ => none

/-- `prevMsg.message?.content` when it is an array
(`Array.isArray(prevMsg.message.content)`), else `none`. -/
def contentBlocksOf (m : StreamMessage) : Option (List ContentBlock) :=
  match m.message with
  | some body =>
    match body.content with
    | .blocks bs => some bs
    | _ => none
  | none => none

/-- The backward scan of `displayableMessages`
(AgentExecution.tsx, lines 125-143): iterate `i` from `index - 1` down to
`0`; for the first `messages[i]` that is an assistant message with array
content containing a `tool_use` block whose `id` equals `tid`, return that
block's `name` and stop (the JS `break`).  Here the argument list is the
preceding messages *already reversed* (most recent first), so the JS
downward loop is the structural recursion. -/
def findMatchedToolUse : List StreamMessage → String → Option (Option String)
  | [], _ => none
  | m :: rest, tid =>
    if m.type = "assistant" then
      match contentBlocksOf m with
      | some bs =>
        match bs.find? (isToolUseWithId tid) with
        | some b => some (nameOfBlock b)
        | none => findMatchedToolUse rest tid
      | none => findMatchedToolUse rest tid
    else findMatchedToolUse rest tid

/-- `willBeSkipped` for one `tool_result` block (AgentExecution.tsx,
lines 122-144): only a truthy `tool_use_id` triggers the scan; the result
is skipped exactly when the scan finds a matching `tool_use` whose name is
self-rendering.  `prior` is the list of messages preceding the current one,
in log order. -/
def toolResultWillBeSkipped (prior : List StreamMessage)
    (tool_use_id : Option String) : Bool :=
  match tool_use_id with
  | some tid =>
    if tid = "" then false
    else
      match findMatchedToolUse prior.reverse tid with
      | some name => isSelfRenderingName name
      | none => false
  | none => false

/-- The `hasVisibleContent` loop over a user message's content array
(AgentExecution.tsx, lines 115-151): a `text` block is visible; a
`tool_result` block is visible unless `willBeSkipped`; every other block
type contributes nothing; the loop stops at the first visible block. -/
def hasVisibleContent (prior : List StreamMessage) : List ContentBlock → Bool
  | [] => false
  | b :: bs =>
    match b with
    | .text _ => true
    | .tool_result tuid _ =>
      if toolResultWillBeSkipped prior tuid then hasVisibleContent prior bs
      else true
    | _ => hasVisibleContent prior bs

/-- The per-message predicate of the `displayableMessages` filter
(AgentExecution.tsx, lines 98-160; identically AgentRunOutputViewer.tsx,
lines 314-354): drop meta messages without `leafUuid`/`summary`; for user
messages drop meta ones, absent/empty content, and block arrays with no
visible block; everything else is visible.  A user message whose `content`
is a non-empty string falls through the `Array.isArray` checks and is
visible; the empty string is falsy (`!msg.content`) and dropped. -/
def messageVisible (prior : List StreamMessage) (m : StreamMessage) : Bool :=
  if m.isMeta && !jsTruthy m.leafUuid && !jsTruthy m.summary then false
  else if m.type = "user" && m.message.isSome then
    if m.isMeta then false
    else
      match m.message with
      | some body =>
        match body.content with
        | .absent => false
        | .str s => s ≠ ""
        | .blocks bs =>
          if bs.isEmpty then false else hasVisibleContent prior bs
      | none => true
  else true

/-- `messages.filter(...)` with the index-dependent predicate: each message
is judged against the list of messages strictly before it (`prior`). -/
def displayableAux (prior : List StreamMessage) :
    List StreamMessage → List StreamMessage
  | [] => []
  | m :: rest =>
    (if messageVisible prior m then [m] else [])
      ++ displayableAux (prior ++ [m]) rest

/-- `displayableMessages` (AgentExecution.tsx, lines 97-161): the visible
projection of the message log. -/
def displayableMessages (msgs : List StreamMessage) : List StreamMessage :=
  displayableAux [] msgs

/-! ## Stream ingestion (AgentRunOutputViewer.tsx) -/

/-- Splitting a character list at newline characters, the semantics of JS
`rawOutput.split('\n')`. -/
def splitNl : List Char → List (List Char)
  | [] => [[]]
  | c :: cs =>
    let r := splitNl cs
    if c = '\n' then [] :: r
    else
      match r with
      | h :: t => (c :: h) :: t
      | [] => [[c]]

/-- JS `line.trim()` is truthy exactly when the line has a non-whitespace
character. -/
def trimNonempty (s : String) : Bool :=
  s.data.any (fun c => !c.isWhitespace)

/-- `rawOutput.split('\n').filter(line => line.trim())`
(AgentRunOutputViewer.tsx, line 138). -/
def linesOf (raw : String) : List String :=
  ((splitNl raw.data).map String.mk).filter trimNonempty

/-- The parse loop of `loadOutput` (AgentRunOutputViewer.tsx, lines
141-149): each line is fed to `JSON.parse` (the parameter `parse`); a
successful parse is pushed onto `parsedMessages`, a failure is logged with
`console.error` and the loop continues with the next line.  The second
component counts the logged parse failures. -/
def parseLines (parse : String → Option StreamMessage) :
    List String → List StreamMessage × Nat
  | [] => ([], 0)
  | l :: ls =>
    let r := parseLines parse ls
    match parse l with
    | some m => (m :: r.1, r.2)
    | none => (r.1, r.2 + 1)

/-- The viewer state mutated by `loadOutput` and the `agent-output` live
listener: the raw JSONL line list, the parsed message list, and the number
of parse failures logged so far. -/
structure ViewerState where
  rawJsonl : List String := []
  messages : List StreamMessage := []
  parseErrors : Nat := 0
deriving DecidableEq

/-- The `agent-output:<runId>` listener body (AgentRunOutputViewer.tsx,
lines 187-198): push the raw payload, then parse it and push the message;
a parse failure is logged (the raw line was already pushed) and leaves the
message list unchanged. -/
def liveHandler (parse : String → Option StreamMessage)
    (st : ViewerState) (payload : String) : ViewerState :=
  match parse payload with
  | some m =>
    { st with rawJsonl := st.rawJsonl ++ [payload],
              messages := st.messages ++ [m] }
  | none =>
    { st with rawJsonl := st.rawJsonl ++ [payload],
              parseErrors := st.parseErrors + 1 }

/-- The snapshot-resolution part of `loadOutput` (AgentRunOutputViewer.tsx,
lines 135-150): when `api.getSessionOutput` resolves with `rawOutput`, the
raw line list is *set* to its non-blank lines and the message list is *set*
to their parses — both replace whatever state (including live lines applied
while the fetch was in flight) was there before. -/
def snapshotHandler (parse : String → Option StreamMessage)
    (st : ViewerState) (rawOutput : String) : ViewerState :=
  let ls := linesOf rawOutput
  let pr := parseLines parse ls
  { st with rawJsonl := ls, messages := pr.1,
            parseErrors := st.parseErrors + pr.2 }

/-! ## Snapshot cache (AgentRunOutputViewer.tsx, lines 116-135) -/

/-- A cached entry as written by `setCachedOutput` (AgentRunOutputViewer.tsx,
lines 153-158): raw output, parsed messages, capture timestamp, and the run
status at capture time. -/
structure CacheEntry where
  output : String := ""
  messages : List StreamMessage := []
  lastUpdated : Nat := 0
  status : String := "completed"
deriving DecidableEq

/-- The early-return condition of `loadOutput` (AgentRunOutputViewer.tsx,
line 128): with a cache hit, the entry is used *without* a fresh fetch
exactly when `Date.now() - cached.lastUpdated < 5000 && run.status !==
'running'`.  Note the code reads `run.status` — the run's current status
prop — not `cached.status`.  (JS number subtraction on a future-dated entry
is negative, hence `< 5000`; `Nat` truncation to `0` gives the same
verdict.) -/
def usesCacheWithoutFetch (now : Nat) (cached : CacheEntry)
    (runStatus : String) : Bool :=
  (now - cached.lastUpdated < 5000) && (runStatus ≠ "running")

/-! ## Scroll controller (AgentRunOutputViewer.tsx) -/

/-- The scroll metrics of the output container plus the `hasUserScrolled`
flag.  `hasUserScrolled = false` is the spec's `Following` state,
`hasUserScrolled = true` its `PinnedByUser` state. -/
structure ScrollVp where
  scrollTop : Int
  scrollHeight : Int
  clientHeight : Int
  hasUserScrolled : Bool
deriving DecidableEq

/-- `scrollHeight - scrollTop - clientHeight`
(AgentRunOutputViewer.tsx, lines 86, 293). -/
def distanceFromBottom (v : ScrollVp) : Int :=
  v.scrollHeight - v.scrollTop - v.clientHeight

/-- `handleScroll` (AgentRunOutputViewer.tsx, lines 290-295):
`setHasUserScrolled(distanceFromBottom > 50)`. -/
def handleScroll (v : ScrollVp) : ScrollVp :=
  { v with hasUserScrolled := distanceFromBottom v > 50 }

/-- `isAtBottom` (AgentRunOutputViewer.tsx, lines 82-90):
`distanceFromBottom < 1`. -/
def isAtBottom (v : ScrollVp) : Bool :=
  distanceFromBottom v < 1

/-- `scrollToBottom` (AgentRunOutputViewer.tsx, lines 92-99): only when the
user has not scrolled away, bring the end sentinel into view, i.e. set
`scrollTop` so that `distanceFromBottom = 0`. -/
def scrollToBottom (v : ScrollVp) : ScrollVp :=
  if v.hasUserScrolled then v
  else { v with scrollTop := v.scrollHeight - v.clientHeight }

/-- The auto-scroll effect on message changes (AgentRunOutputViewer.tsx,
lines 109-114): `shouldAutoScroll = !hasUserScrolled || isAtBottom()`, and
if so, `scrollToBottom()`. -/
def onMessagesChanged (v : ScrollVp) : ScrollVp :=
  if !v.hasUserScrolled || isAtBottom v then scrollToBottom v else v

/-- Appending a visible item: the content grows by `growth`, then the
message-change effect runs. -/
def appendItem (v : ScrollVp) (growth : Int) : ScrollVp :=
  onMessagesChanged { v with scrollHeight := v.scrollHeight + growth }

/-! ## Windower (AgentExecution.tsx, lines 163-176 and 718-743)

`useVirtualizer` is configured with `estimateSize: () => 150`,
`overscan: 5` and — crucially — *no* `getItemKey`, so the virtualizer
falls back to its default item key, the item's index; the rendered rows
are tagged `data-index={virtualItem.index}` and `measureElement` stores
the measured extent under that key. -/

/-- `estimateSize: () => 150` (AgentExecution.tsx, line 167). -/
def estimateSize : Nat := 150

/-- `overscan: 5` (AgentExecution.tsx, line 168). -/
def overscan : Nat := 5

/-- The default item key used because the source supplies no `getItemKey`:
the item's index in the visible projection. -/
def defaultItemKey (i : Nat) : Nat := i

/-- The virtualizer's measured-size cache: item key to measured extent. -/
structure Windower where
  measurements : List (Nat × Nat) := []
deriving DecidableEq

/-- Lookup in the measured-size cache (first, i.e. most recent, binding of
a key wins — the map-set semantics of the virtualizer's `itemSizeCache`). -/
def lookupMeas : List (Nat × Nat) → Nat → Option Nat
  | [], _ => none
  | q :: l, k => if q.1 = k then some q.2 else lookupMeas l k

/-- `rowVirtualizer.measureElement(el)` for the row tagged
`data-index={i}` (AgentExecution.tsx, line 729): record the measured size
`sz` under the item's key (the new binding shadows any older one). -/
def measureElement (w : Windower) (i sz : Nat) : Windower :=
  { measurements := (defaultItemKey i, sz) :: w.measurements }

/-- The extent the virtualizer uses for the item at index `i`: its
measurement if present, the 150-unit estimate otherwise. -/
def itemSize (w : Windower) (i : Nat) : Nat :=
  (lookupMeas w.measurements (defaultItemKey i)).getD estimateSize

/-! ## Execution view: stop control and exports (AgentExecution.tsx) -/

/-- The `AgentExecution` state touched by `handleStop` and the export
handlers: parsed messages, raw JSONL lines, the running flag and timing /
token tallies. -/
structure ExecState where
  messages : List StreamMessage := []
  rawJsonl : List String := []
  isRunning : Bool := false
  executionStartTime : Option Nat := none
  elapsedTime : Nat := 0
  totalTokens : Nat := 0
deriving DecidableEq

/-- The synthetic stop marker appended by `handleStop`
(AgentExecution.tsx, lines 339-349). -/
def stopMessage (elapsedTime totalTokens : Nat) : StreamMessage :=
  { type := "result",
    subtype := some "error",
    is_error := true,
    result := some "执行已被用户停止",
    duration_ms := some (elapsedTime * 1000),
    usage := some ⟨totalTokens, 0⟩ }

/-- `handleStop` (AgentExecution.tsx, lines 327-353): clear the running
flag and start time, and append the stop marker to `messages`.
`rawJsonlOutput` is not touched. -/
def handleStop (st : ExecState) : ExecState :=
  { st with isRunning := false,
            executionStartTime := none,
            messages := st.messages ++
              [stopMessage st.elapsedTime st.totalTokens] }

/-- `handleCopyAsJsonl` (AgentExecution.tsx, lines 374-378):
`rawJsonlOutput.join('\n')`. -/
def copyAsJsonl (st : ExecState) : String :=
  String.intercalate "\n" st.rawJsonl

/-- `${x || 'd'}` for an optional string: the default replaces a falsy
(`undefined` or empty) value. -/
def jsOrStr (o : Option String) (d : String) : String :=
  match o with
  | some s => if s = "" then d else s
  | none => d

/-- `${content.name}` where the field may be `undefined` (JS renders the
string "undefined"). -/
def jsShow (o : Option String) : String :=
  match o with
  | some s => s
  | none => "undefined"

/-- `msg.message.content || []` as iterated by `for..of` in the Markdown
exporter: an absent content is the empty array; string content iterates
characters whose `.type` is `undefined`, so no branch fires and nothing is
emitted. -/
def blocksForOf : MsgContent → List ContentBlock
  | .blocks bs => bs
  | _ => []

/-- One assistant content block of the Markdown export
(AgentExecution.tsx, lines 397-404). -/
def mdAssistantBlock : ContentBlock → String
  | .text t => t ++ "\n\n"
  | .tool_use _ name inputJson =>
    "### 工具: " ++ jsShow name ++ "\n\n" ++
    "```json\n" ++ inputJson ++ "\n```\n\n"
  | _ => ""

/-- One user content block of the Markdown export
(AgentExecution.tsx, lines 410-417). -/
def mdUserBlock : ContentBlock → String
  | .text t => t ++ "\n\n"
  | .tool_result _ content =>
    "### 工具结果\n\n" ++ "```\n" ++ content ++ "\n```\n\n"
  | _ => ""

/-- The per-message section of `handleCopyAsMarkdown` (AgentExecution.tsx,
lines 387-440).  JS floating-point formatting is abstracted: `durFmt d`
stands for `(d / 1000).toFixed(2)` and `costFmt c` for `c.toFixed(4)`. -/
def mdSection (durFmt costFmt : Nat → String) (m : StreamMessage) : String :=
  if m.type = "system" && m.subtype = some "init" then
    "## 系统初始化\n\n" ++
    "- 会话 ID: `" ++ jsOrStr m.session_id "无" ++ "`\n" ++
    "- 模型: `" ++ jsOrStr m.model "默认" ++ "`\n" ++
    (match m.cwd with
     | some c => if c = "" then "" else "- 工作目录: `" ++ c ++ "`\n"
     | none => "") ++
    (match m.tools with
     | some ts =>
       if ts.isEmpty then "" else "- 工具: " ++ String.intercalate ", " ts ++ "\n"
     | none => "") ++
    "\n"
  else if m.type = "assistant" && m.message.isSome then
    match m.message with
    | some body =>
      "## 助手\n\n" ++
      String.join ((blocksForOf body.content).map mdAssistantBlock) ++
      (match body.usage with
       | some u =>
         "*令牌数: 输入 " ++ toString u.input_tokens ++
         ", 输出 " ++ toString u.output_tokens ++ "*\n\n"
       | none => "")
    | none => ""
  else if m.type = "user" && m.message.isSome then
    match m.message with
    | some body =>
      "## 用户\n\n" ++
      String.join ((blocksForOf body.content).map mdUserBlock)
    | none => ""
  else if m.type = "result" then
    "## 执行结果\n\n" ++
    (match m.result with
     | some r => if r = "" then "" else r ++ "\n\n"
     | none => "") ++
    (match m.error with
     | some e => if e = "" then "" else "**错误:** " ++ e ++ "\n\n"
     | none => "") ++
    (match m.cost_usd with
     | some c => "- **成本:** $" ++ costFmt c ++ " USD\n"
     | none => "") ++
    (match m.duration_ms with
     | some d => "- **持续时间:** " ++ durFmt d ++ "秒\n"
     | none => "") ++
    (match m.num_turns with
     | some n => "- **回合数:** " ++ toString n ++ "\n"
     | none => "") ++
    (match m.usage with
     | some u =>
       "- **总令牌数:** " ++ toString (u.input_tokens + u.output_tokens) ++
       " (输入 " ++ toString u.input_tokens ++
       ", 输出 " ++ toString u.output_tokens ++ ")\n"
     | none => "")
  else ""

/-- The header block of `handleCopyAsMarkdown` (AgentExecution.tsx,
lines 381-385). -/
def mdHeader (agentName task model date : String) : String :=
  "# 代理执行: " ++ agentName ++ "\n\n" ++
  "**任务:** " ++ task ++ "\n" ++
  "**模型:** " ++
    (if model = "opus" then "Claude 4 Opus" else "Claude 4 Sonnet") ++ "\n" ++
  "**日期:** " ++ date ++ "\n\n" ++
  "---\n\n"

/-- `handleCopyAsMarkdown` (AgentExecution.tsx, lines 380-444): the header
followed by one section per message, accumulated in log order exactly as
the JS `markdown +=` loop does. -/
def copyAsMarkdown (durFmt costFmt : Nat → String)
    (agentName task model date : String) (msgs : List StreamMessage) : String :=
  msgs.foldl (fun acc m => acc ++ mdSection durFmt costFmt m)
    (mdHeader agentName task model date)

/-! ## Concrete fixtures for the scenario claims -/

/-- An assistant message whose content is one `tool_use` block with the
given id and name (input `{}`, whose stringification is `\x7b\x7d`). -/
def asstToolUse (id name : String) : StreamMessage :=
  { type := "assistant",
    message := some { content := .blocks [.tool_use (some id) (some name) "\x7b\x7d"] } }

/-- A user message whose content is one `tool_result` block with the given
`tool_use_id` and content. -/
def userToolResult (tid content : String) : StreamMessage :=
  { type := "user",
    message := some { content := .blocks [.tool_result (some tid) content] } }

/-- A user message whose content is one `text` block. -/
def userText (t : String) : StreamMessage :=
  { type := "user", message := some { content := .blocks [.text t] } }

/-- A raw JSONL line of an assistant event (braces written as `\x7b`/`\x7d`). -/
def lineAsst : String := "\x7b\"type\":\"assistant\"\x7d"

/-- A raw JSONL line of a user event. -/
def lineUser : String := "\x7b\"type\":\"user\"\x7d"

/-- The parses of the two lines above. -/
def msgAsst : StreamMessage := { type := "assistant" }

/-- The parse of `lineUser`. -/
def msgUser : StreamMessage := { type := "user" }

/-- A stand-in for `JSON.parse` on the concrete lines used in the
scenarios: it parses `lineAsst` and `lineUser` to their events and fails
(throws) on everything else, consistent with `JSON.parse` on these
strings. -/
def demoParse (s : String) : Option StreamMessage :=
  if s = lineAsst then some msgAsst
  else if s = lineUser then some msgUser
  else none

/-- Whether `loadOutput` reaches `api.getSessionOutput` (the fetch): it is
skipped exactly when the cache is consulted (`!skipCache`), hits, and the
entry passes the freshness condition (AgentRunOutputViewer.tsx,
lines 120-135). -/
def loadOutputFetches (skipCache : Bool) (cached : Option CacheEntry)
    (now : Nat) (runStatus : String) : Bool :=
  !((!skipCache) &&
    (match cached with
     | some e => usesCacheWithoutFetch now e runStatus
     | none => false))

/-- Modelled from the spec: "scan backward through preceding `Assistant`
messages (most recent first) for a `ToolUse` block whose `id` equals the
`ToolResult.tool_use_id`; first match wins" — a declarative `findSome?`
over the reversed preceding messages, to be compared with the source's
loop `findMatchedToolUse`. -/
def specMatchedToolUse (preceding : List StreamMessage) (tid : String) :
    Option (Option String) :=
  preceding.reverse.findSome? (fun m =>
    if m.type = "assistant" then
      match contentBlocksOf m with
      | some bs => (bs.find? (isToolUseWithId tid)).map nameOfBlock
      | none => none
    else none)

/-- A cache entry captured while the run was still running:
`runStatusAtCapture = "running"`, age 3000 ms at `now = 10000`. -/
def staleStatusEntry : CacheEntry :=
  { lastUpdated := 7000, status := "running" }

/-- Declarative no-match condition for the fail-open claim: no `tool_use`
block with the given id occurs in any preceding assistant message's
content array. -/
def noPrecedingMatch (pre : List StreamMessage) (t : String) : Bool :=
  pre.all (fun m' =>
    !(m'.type = "assistant") ||
      ((contentBlocksOf m').getD []).all (fun b => !isToolUseWithId t b))

/-- Message log A for the windower scenario: an unknown tool keeps its
result visible, so the projection is all three messages and the trailing
text message sits at index 2. -/
def windowMsgsA : List StreamMessage :=
  [asstToolUse "t1" "UnknownTool", userToolResult "t1" "ok", userText "hello"]

/-- Message log B: the same log except the tool is `bash`, so the tool
result is filtered out and the trailing text message shifts to index 1. -/
def windowMsgsB : List StreamMessage :=
  [asstToolUse "t1" "bash", userToolResult "t1" "ok", userText "hello"]

/-- A windower that measured the items at indices 1 and 2 of projection A
(100 and 300 units respectively). -/
def windowMeasured : Windower :=
  measureElement (measureElement {} 1 100) 2 300

/-! ## Helper lemmas -/

/-- Appending the empty string is the identity. -/
theorem str_append_empty (s : String) : s ++ "" = s := by
  cases s with
  | mk data =>
    show String.mk (data ++ []) = String.mk data
    simp

/-- Prepending the empty string is the identity. -/
theorem str_empty_append (s : String) : "" ++ s = s := by
  apply String.ext
  simp [String.data_append]

/-- String concatenation is associative. -/
theorem str_append_assoc (a b c : String) : (a ++ b) ++ c = a ++ (b ++ c) := by
  apply String.ext
  simp [String.data_append, List.append_assoc]

/-- The visible projection splits over a split of the log, with the second
part judged against a `prior` extended by the first part. -/
theorem displayableAux_append (xs : List StreamMessage) :
    ∀ (prior ys : List StreamMessage),
      displayableAux prior (xs ++ ys)
        = displayableAux prior xs ++ displayableAux (prior ++ xs) ys := by
  induction xs with
  | nil => intro prior ys; simp [displayableAux]
  | cons x xs ih =>
    intro prior ys
    simp only [List.cons_append, displayableAux, List.append_eq]
    rw [ih (prior ++ [x]) ys,
      show prior ++ x :: xs = (prior ++ [x]) ++ xs by simp,
      List.append_assoc]
    simp [List.append_assoc]

/-- The parse loop distributes over list append: messages concatenate and
parse-error counts add. -/
theorem parseLines_append (parse : String → Option StreamMessage)
    (xs : List String) : ∀ ys : List String,
    parseLines parse (xs ++ ys)
      = ((parseLines parse xs).1 ++ (parseLines parse ys).1,
         (parseLines parse xs).2 + (parseLines parse ys).2) := by
  induction xs with
  | nil => intro ys; simp [parseLines]
  | cons l ls ih =>
    intro ys
    simp only [List.cons_append, parseLines, List.append_eq, ih ys]
    cases parse l with
    | some m => simp
    | none => simp; omega

/-- Replaying a list of live payloads appends their parses, in arrival
order, to the message list, and the raw payloads to the raw line list. -/
theorem foldl_liveHandler (parse : String → Option StreamMessage)
    (ps : List String) : ∀ st : ViewerState,
    (ps.foldl (liveHandler parse) st).messages
        = st.messages ++ ps.filterMap parse
    ∧ (ps.foldl (liveHandler parse) st).rawJsonl = st.rawJsonl ++ ps := by
  induction ps with
  | nil => intro st; simp
  | cons p ps ih =>
    intro st
    simp only [List.foldl_cons, List.filterMap_cons]
    cases hp : parse p <;>
      simp [liveHandler, hp, ih, List.append_assoc]

/-- The source's downward scan loop agrees with a declarative `findSome?`
over the same list. -/
theorem findMatchedToolUse_eq_findSome (tid : String) :
    ∀ l : List StreamMessage,
    findMatchedToolUse l tid
      = l.findSome? (fun m =>
          if m.type = "assistant" then
            match contentBlocksOf m with
            | some bs => (bs.find? (isToolUseWithId tid)).map nameOfBlock
            | none => none
          else none) := by
  intro l; induction l with
  | nil => rfl
  | cons m rest ih =>
    rw [List.findSome?_cons]
    unfold findMatchedToolUse
    by_cases hm : m.type = "assistant"
    · simp only [hm, if_true]
      cases hcb : contentBlocksOf m with
      | none => simp [ih]
      | some bs =>
        cases hf : bs.find? (isToolUseWithId tid) <;> simp [hf, ih]
    · simp [hm, ih]

/-- If no assistant message in the scanned list carries a matching
`tool_use` block, the scan returns nothing. -/
theorem findMatchedToolUse_eq_none (t : String) :
    ∀ l : List StreamMessage,
      (∀ m' ∈ l, m'.type = "assistant" →
        ∀ b ∈ (contentBlocksOf m').getD [], isToolUseWithId t b = false) →
      findMatchedToolUse l t = none := by
  intro l; induction l with
  | nil => intro _; rfl
  | cons m rest ih =>
    intro h
    unfold findMatchedToolUse
    have hrest : findMatchedToolUse rest t = none :=
      ih (fun m' hm' => h m' (List.mem_cons_of_mem m hm'))
    by_cases hm : m.type = "assistant"
    · simp only [hm, if_true]
      cases hcb : contentBlocksOf m with
      | none => exact hrest
      | some bs =>
        have hnone : bs.find? (isToolUseWithId t) = none := by
          apply List.find?_eq_none.mpr
          intro b hb
          have := h m (List.mem_cons_self m rest) hm b (by rw [hcb]; exact hb)
          simp [this]
        simp [hnone, hrest]
    · simp [hm, hrest]

/-- A content array containing a non-skipped `tool_result` block has
visible content. -/
theorem hasVisibleContent_of_toolResult
    (prior : List StreamMessage) (tid : Option String) (c : String) :
    ∀ bs : List ContentBlock, ContentBlock.tool_result tid c ∈ bs →
      toolResultWillBeSkipped prior tid = false →
      hasVisibleContent prior bs = true := by
  intro bs; induction bs with
  | nil => intro h; exact absurd h (List.not_mem_nil _)
  | cons b rest ih =>
    intro hmem hskip
    rcases List.mem_cons.mp hmem with he | hm
    · rw [← he]
      unfold hasVisibleContent
      simp [hskip]
    · cases b with
      | text t => rfl
      | tool_result tuid cc =>
        unfold hasVisibleContent
        by_cases hs : toolResultWillBeSkipped prior tuid = true
        · simp [hs, ih hm hskip]
        · simp [hs]
      | tool_use a b c => exact ih hm hskip
      | other ty => exact ih hm hskip

/-- No widget tool name carries the `mcp__` prefix, so a string with that
prefix is never in the widget list. -/
theorem contains_eq_false_of_mcp (s : String)
    (h : jsStartsWith s "mcp__" = true) :
    toolsWithWidgets.contains s = false := by
  cases hc : toolsWithWidgets.contains s with
  | false => rfl
  | true =>
    have hmem : s ∈ toolsWithWidgets := List.mem_of_elem_eq_true hc
    simp only [toolsWithWidgets, List.mem_cons, List.not_mem_nil,
      or_false] at hmem
    rcases hmem with h1|h1|h1|h1|h1|h1|h1|h1|h1|h1 <;> subst h1 <;>
      exact absurd h (by decide)

/-! ## The claims -/

/-- Claim C1, counterexample.  The claim says live lines received while a
snapshot fetch is in flight are buffered, not applied, and after the
snapshot resolves with K lines they are replayed (with tail dedup) after
those K lines.  In the code the live listener applies the line at once
(`messages` becomes `[msgAsst]`, not the empty buffer-untouched log), and
when the snapshot (here the single line `lineUser`) resolves, the log is
*replaced* by the snapshot's parse `[msgUser]` — the buffered-replay
protocol would instead give `[msgUser, msgAsst]`. -/
theorem c1_counterexample :
    (liveHandler demoParse {} lineAsst).messages = [msgAsst]
    ∧ (snapshotHandler demoParse (liveHandler demoParse {} lineAsst)
        lineUser).messages = [msgUser]
    ∧ (snapshotHandler demoParse (liveHandler demoParse {} lineAsst)
        lineUser).messages ≠ [msgUser, msgAsst] := by decide

/-- Claim C1, amended.  Live lines are applied immediately, in arrival
order, whenever the listener is active (second conjunct); a resolving
snapshot replaces the whole log (and raw line list) with the snapshot's
parsed lines, discarding live lines applied while the fetch was in flight
(third and fourth conjuncts); and live lines arriving after the snapshot
resolved are appended strictly in arrival order after the snapshot lines,
never interleaved ahead of them (first conjunct). -/
theorem c1_theorem (parse : String → Option StreamMessage) (st : ViewerState)
    (raw : String) (ps : List String) (p : String) :
    (ps.foldl (liveHandler parse) (snapshotHandler parse st raw)).messages
        = (parseLines parse (linesOf raw)).1 ++ ps.filterMap parse
    ∧ (liveHandler parse st p).messages = st.messages ++ (parse p).toList
    ∧ (snapshotHandler parse (liveHandler parse st p) raw).messages
        = (snapshotHandler parse st raw).messages
    ∧ (snapshotHandler parse (liveHandler parse st p) raw).rawJsonl
        = (snapshotHandler parse st raw).rawJsonl := by
  refine ⟨(foldl_liveHandler parse ps _).1, ?_, rfl, rfl⟩
  cases hp : parse p <;> simp [liveHandler, hp]

/-- Claim C2, counterexample.  The claim conditions cache reuse on the
status recorded at capture (`runStatusAtCapture`).  `staleStatusEntry` was
captured with status `"running"` and is 3000 ms old at `now = 10000`; the
claim demands a fetch, but the code — which tests the run's *current*
status (`run.status`), here `"completed"` — uses the entry without
fetching, so the claimed equivalence fails at this input. -/
theorem c2_counterexample :
    usesCacheWithoutFetch 10000 staleStatusEntry "completed" = true
    ∧ staleStatusEntry.status = "running"
    ∧ ¬(usesCacheWithoutFetch 10000 staleStatusEntry "completed" = true
        ↔ (10000 - staleStatusEntry.lastUpdated < 5000
           ∧ staleStatusEntry.status ≠ "running")) := by decide

/-- Claim C2, amended.  With the cache consulted (`skipCache = false`) and
hitting, `loadOutput` skips the network fetch iff the entry is younger
than the 5000 ms freshness window *and the run's current status* is not
`"running"`; in particular an entry with `lastUpdated = now - 3000` is
used with no fetch when the run's current status is `"completed"`. -/
theorem c2_theorem :
    (∀ (now : Nat) (e : CacheEntry) (s : String),
      loadOutputFetches false (some e) now s = false
        ↔ (now - e.lastUpdated < 5000 ∧ s ≠ "running"))
    ∧ loadOutputFetches false
        (some { lastUpdated := 97000, status := "completed" })
        100000 "completed" = false := by
  refine ⟨?_, by decide⟩
  intro now e s
  simp [loadOutputFetches, usesCacheWithoutFetch]

/-- Claim C3.  The self-rendering classification of a user `tool_result`
block scans backward through preceding assistant messages, most recent
first, for the `tool_use` block with matching id, first match winning
(the source loop equals the declarative spec scan `specMatchedToolUse`),
and the block is excluded iff the matched name, lower-cased, is in the
widget set or the name starts with `mcp__`; concretely a result matched to
`ToolUse(name="Read")` leaves its message excluded while one matched to
`ToolUse(name="UnknownTool")` leaves it included. -/
theorem c3_theorem :
    (∀ (prior : List StreamMessage) (tid : String), tid ≠ "" →
      toolResultWillBeSkipped prior (some tid)
        = (match specMatchedToolUse prior tid with
           | some name => isSelfRenderingName name
           | none => false))
    ∧ displayableMessages [asstToolUse "t1" "Read", userToolResult "t1" "ok"]
        = [asstToolUse "t1" "Read"]
    ∧ displayableMessages
        [asstToolUse "t1" "UnknownTool", userToolResult "t1" "ok"]
        = [asstToolUse "t1" "UnknownTool", userToolResult "t1" "ok"] := by
  refine ⟨?_, by decide, by decide⟩
  intro prior tid h
  show (if tid = "" then false
        else
          match findMatchedToolUse prior.reverse tid with
          | some name => isSelfRenderingName name
          | none => false) = _
  rw [if_neg h, findMatchedToolUse_eq_findSome]
  rfl

/-- Witness for C3 at a concrete log and id. -/
theorem c3_witness :
    toolResultWillBeSkipped [asstToolUse "t1" "Read"] (some "t1")
      = (match specMatchedToolUse [asstToolUse "t1" "Read"] "t1" with
         | some name => isSelfRenderingName name
         | none => false) :=
  c3_theorem.1 [asstToolUse "t1" "Read"] "t1" (by decide)

/-- Claim C4.  Feeding the filter the two-message log — an assistant
message with a single `tool_use` (id `t1`, name `bash`) followed by a user
message with a single `tool_result` (`tool_use_id` `t1`, content `ok`) —
yields exactly one visible message, the assistant message. -/
theorem c4_theorem :
    displayableMessages [asstToolUse "t1" "bash", userToolResult "t1" "ok"]
      = [asstToolUse "t1" "bash"]
    ∧ (displayableMessages
        [asstToolUse "t1" "bash", userToolResult "t1" "ok"]).length = 1 := by
  decide

/-- Claim C5.  A non-meta user message containing a `tool_result` block
whose `tool_use_id` matches no `tool_use` block in any preceding assistant
message is treated as visible (fail-open): the filter keeps it. -/
theorem c5_theorem (pre post : List StreamMessage) (m : StreamMessage)
    (body : MessageBody) (bs : List ContentBlock)
    (tid : Option String) (c : String)
    (htype : m.type = "user") (hmeta : m.isMeta = false)
    (hmsg : m.message = some body) (hcontent : body.content = .blocks bs)
    (hmem : ContentBlock.tool_result tid c ∈ bs)
    (hnomatch : ∀ t, tid = some t → noPrecedingMatch pre t = true) :
    messageVisible pre m = true
    ∧ m ∈ displayableMessages (pre ++ m :: post) := by
  have hskip : toolResultWillBeSkipped pre tid = false := by
    cases tid with
    | none => rfl
    | some t =>
      show (if t = "" then false
            else
              match findMatchedToolUse pre.reverse t with
              | some name => isSelfRenderingName name
              | none => false) = false
      by_cases ht : t = ""
      · simp [ht]
      · have hnone : findMatchedToolUse pre.reverse t = none := by
          apply findMatchedToolUse_eq_none
          intro m' hm' ha b hb
          have hm'' : m' ∈ pre := List.mem_reverse.mp hm'
          have hall := (List.all_eq_true.mp (hnomatch t rfl)) m' hm''
          simp only [ha, decide_True, Bool.not_true, Bool.false_or] at hall
          have := (List.all_eq_true.mp hall) b hb
          simpa using this
        simp [ht, hnone]
  have hisEmpty : bs.isEmpty = false := by
    cases bs with
    | nil => exact absurd hmem (List.not_mem_nil _)
    | cons b bs' => rfl
  have hhvc : hasVisibleContent pre bs = true :=
    hasVisibleContent_of_toolResult pre tid c bs hmem hskip
  have hvis : messageVisible pre m = true := by
    simp [messageVisible, htype, hmeta, hmsg, hcontent, hisEmpty, hhvc]
  refine ⟨hvis, ?_⟩
  rw [displayableMessages, displayableAux_append]
  apply List.mem_append_right
  show m ∈ displayableAux ([] ++ pre) (m :: post)
  simp [displayableAux, hvis]

/-- Witness for C5: an orphaned tool result (id `t9`, no tool use
anywhere before it) stays visible. -/
theorem c5_witness :
    messageVisible [userText "hi"] (userToolResult "t9" "ok") = true
    ∧ userToolResult "t9" "ok"
        ∈ displayableMessages [userText "hi", userToolResult "t9" "ok"] :=
  c5_theorem [userText "hi"] [] (userToolResult "t9" "ok")
    { content := .blocks [.tool_result (some "t9") "ok"] }
    [.tool_result (some "t9") "ok"] (some "t9") "ok"
    rfl rfl rfl rfl (by decide)
    (by intro t ht; cases ht; decide)

/-- Claim C6.  A line that fails to parse is counted as a parse failure,
contributes no entry to the parsed message log, and leaves the ingestion
of every other line — before or after it — unaffected, in both the
snapshot parse loop and the live-event handler (where the raw line is
still recorded); the failure is never fatal. -/
theorem c6_theorem (parse : String → Option StreamMessage)
    (xs ys : List String) (bad : String) (st : ViewerState)
    (h : parse bad = none) :
    (parseLines parse (xs ++ bad :: ys)).1 = (parseLines parse (xs ++ ys)).1
    ∧ (parseLines parse (xs ++ bad :: ys)).2
        = (parseLines parse (xs ++ ys)).2 + 1
    ∧ liveHandler parse st bad
        = { st with rawJsonl := st.rawJsonl ++ [bad],
                    parseErrors := st.parseErrors + 1 } := by
  rw [parseLines_append parse xs (bad :: ys), parseLines_append parse xs ys]
  refine ⟨?_, ?_, ?_⟩
  · simp [parseLines, h]
  · simp [parseLines, h]; omega
  · simp [liveHandler, h]

/-- Witness for C6: the unparseable line `oops` between two good lines. -/
theorem c6_witness :
    (parseLines demoParse ([lineAsst] ++ "oops" :: [lineUser])).1
        = (parseLines demoParse ([lineAsst] ++ [lineUser])).1
    ∧ (parseLines demoParse ([lineAsst] ++ "oops" :: [lineUser])).2
        = (parseLines demoParse ([lineAsst] ++ [lineUser])).2 + 1
    ∧ liveHandler demoParse {} "oops"
        = { rawJsonl := ["oops"], messages := [], parseErrors := 1 } :=
  c6_theorem demoParse [lineAsst] [lineUser] "oops" {} (by decide)

/-- Claim C7.  With the viewer Following (`hasUserScrolled = false`),
appending an item auto-scrolls the viewport to the bottom
(`distanceFromBottom = 0`); a user scroll event with `distanceFromBottom`
exceeding the 50-unit threshold moves the controller to PinnedByUser
(`hasUserScrolled = true`), after which appends leave `scrollTop`
untouched; a scroll event at or below the threshold puts (or keeps) it in
Following. -/
theorem c7_theorem (v : ScrollVp) (g : Int) :
    (v.hasUserScrolled = false → distanceFromBottom (appendItem v g) = 0)
    ∧ (distanceFromBottom v > 50 →
        (handleScroll v).hasUserScrolled = true
        ∧ ∀ g' : Int, (appendItem (handleScroll v) g').scrollTop = v.scrollTop)
    ∧ (distanceFromBottom v ≤ 50 → (handleScroll v).hasUserScrolled = false) := by
  refine ⟨?_, ?_, ?_⟩
  · intro h
    simp [appendItem, onMessagesChanged, scrollToBottom, isAtBottom,
      distanceFromBottom, h]
  · intro h
    have hd : (50 : Int) < v.scrollHeight - v.scrollTop - v.clientHeight := by
      simpa [distanceFromBottom] using h
    have hh : (handleScroll v).hasUserScrolled = true := by
      simp [handleScroll, distanceFromBottom, hd]
    refine ⟨hh, ?_⟩
    intro g'
    simp [appendItem, onMessagesChanged, scrollToBottom, isAtBottom,
      handleScroll, distanceFromBottom, hd]
  · intro h
    simp [handleScroll, distanceFromBottom] at *
    omega

/-- Witness for C7 at concrete viewport states (following at the bottom,
pinned 100 units up, and a scroll landing 50 units short of the bottom). -/
theorem c7_witness :
    distanceFromBottom (appendItem ⟨0, 200, 100, false⟩ 50) = 0
    ∧ ((handleScroll ⟨0, 200, 100, false⟩).hasUserScrolled = true
       ∧ ∀ g' : Int,
          (appendItem (handleScroll ⟨0, 200, 100, false⟩) g').scrollTop = 0)
    ∧ (handleScroll ⟨150, 200, 100, false⟩).hasUserScrolled = false :=
  ⟨(c7_theorem ⟨0, 200, 100, false⟩ 50).1 rfl,
   (c7_theorem ⟨0, 200, 100, false⟩ 0).2.1 (by decide),
   (c7_theorem ⟨150, 200, 100, false⟩ 0).2.2 (by decide)⟩

/-- Claim C8, counterexample.  Messages carry no `sequenceIndex` field and
the virtualizer is configured without `getItemKey`, so measurements are
keyed by the item's *position* in the visible projection.  The trailing
text message of `windowMsgsA` was measured (300 units) at position 2;
in `windowMsgsB` — the same log with the preceding tool result filtered
out — it sits at position 1, where the cache serves the other item's
100-unit measurement: the filtering reassigned its measurement. -/
theorem c8_counterexample :
    (displayableMessages windowMsgsA)[2]? = some (userText "hello")
    ∧ (displayableMessages windowMsgsB)[1]? = some (userText "hello")
    ∧ itemSize windowMeasured 2 = 300
    ∧ itemSize windowMeasured 1 = 100
    ∧ (100 : Nat) ≠ 300 := by decide

/-- Claim C8, amended.  The measured-size cache is keyed by the item's
index in the visible projection (the virtualizer default, as the source
supplies no item key).  Appending messages never shifts existing visible
items — the projection of `msgs ++ [m]` is the projection of `msgs`
followed by at most `m` — so appends preserve every already-measured
item's measurement; measuring one index leaves all other indices'
measurements intact; but position shifts (e.g. by filtering, as in the
counterexample) reassign measurements. -/
theorem c8_theorem :
    (∀ (msgs : List StreamMessage) (m : StreamMessage),
      displayableMessages (msgs ++ [m])
        = displayableMessages msgs
            ++ (if messageVisible msgs m then [m] else []))
    ∧ (∀ (w : Windower) (i sz j : Nat),
        itemSize (measureElement w i sz) j
          = if j = i then sz else itemSize w j)
    ∧ (∀ i : Nat, defaultItemKey i = i) := by
  refine ⟨?_, ?_, fun i => rfl⟩
  · intro msgs m
    rw [displayableMessages, displayableAux_append]
    simp [displayableAux, displayableMessages]
  · intro w i sz j
    by_cases h : j = i
    · simp [itemSize, measureElement, lookupMeas, defaultItemKey, h]
    · have h' : ¬(i = j) := fun hh => h hh.symm
      simp [itemSize, measureElement, lookupMeas, defaultItemKey, h, h']

/-- Claim C9.  The widget-set membership test runs on the lower-cased tool
name while the `mcp__` prefix test runs on the original name,
case-sensitively: a name carrying the prefix in any other casing (such as
`MCP__x`) is not self-rendering and its result message stays visible,
whereas `Bash` and `READ` are still suppressed. -/
theorem c9_theorem :
    (∀ n : String, isSelfRenderingName (some n)
        = (toolsWithWidgets.contains (jsToLower n) || jsStartsWith n "mcp__"))
    ∧ (∀ n : String, jsStartsWith (jsToLower n) "mcp__" = true →
        jsStartsWith n "mcp__" = false → isSelfRenderingName (some n) = false)
    ∧ displayableMessages [asstToolUse "t1" "MCP__x", userToolResult "t1" "ok"]
        = [asstToolUse "t1" "MCP__x", userToolResult "t1" "ok"]
    ∧ displayableMessages [asstToolUse "t1" "Bash", userToolResult "t1" "ok"]
        = [asstToolUse "t1" "Bash"]
    ∧ displayableMessages [asstToolUse "t1" "READ", userToolResult "t1" "ok"]
        = [asstToolUse "t1" "READ"] := by
  refine ⟨fun n => rfl, ?_, by decide, by decide, by decide⟩
  intro n h1 h2
  show (toolsWithWidgets.contains (jsToLower n) || jsStartsWith n "mcp__")
      = false
  rw [contains_eq_false_of_mcp (jsToLower n) h1, h2]
  rfl

/-- Witness for C9 at the name `MCP__x`. -/
theorem c9_witness : isSelfRenderingName (some "MCP__x") = false :=
  c9_theorem.2.1 "MCP__x" (by decide) (by decide)

/-- Claim C10.  `handleStop` appends exactly one synthetic result message
(type `result`, `is_error` true, the user-stopped text, the elapsed
duration in milliseconds and the token totals) to the parsed message list
and leaves the raw JSONL list — hence the JSONL export — unchanged, while
the rendered view (the visible projection) and the Markdown export both
include the stop marker. -/
theorem c10_theorem (st : ExecState) (durFmt costFmt : Nat → String)
    (agentName tsk mo date : String) :
    (handleStop st).messages
        = st.messages ++ [stopMessage st.elapsedTime st.totalTokens]
    ∧ (stopMessage st.elapsedTime st.totalTokens).type = "result"
    ∧ (stopMessage st.elapsedTime st.totalTokens).is_error = true
    ∧ (stopMessage st.elapsedTime st.totalTokens).result
        = some "执行已被用户停止"
    ∧ (stopMessage st.elapsedTime st.totalTokens).duration_ms
        = some (st.elapsedTime * 1000)
    ∧ (stopMessage st.elapsedTime st.totalTokens).usage
        = some ⟨st.totalTokens, 0⟩
    ∧ (handleStop st).rawJsonl = st.rawJsonl
    ∧ copyAsJsonl (handleStop st) = copyAsJsonl st
    ∧ stopMessage st.elapsedTime st.totalTokens
        ∈ displayableMessages (handleStop st).messages
    ∧ ∃ pre suf,
        copyAsMarkdown durFmt costFmt agentName tsk mo date
            (handleStop st).messages
          = pre ++ "执行已被用户停止" ++ suf := by
  refine ⟨rfl, rfl, rfl, rfl, rfl, rfl, rfl, rfl, ?_, ?_⟩
  · show stopMessage st.elapsedTime st.totalTokens
        ∈ displayableMessages
            (st.messages ++ [stopMessage st.elapsedTime st.totalTokens])
    rw [displayableMessages, displayableAux_append]
    apply List.mem_append_right
    simp [displayableAux,
      show messageVisible st.messages
        (stopMessage st.elapsedTime st.totalTokens) = true from rfl]
  · refine ⟨copyAsMarkdown durFmt costFmt agentName tsk mo date st.messages
        ++ "## 执行结果\n\n",
      "\n\n"
        ++ ("- **持续时间:** " ++ durFmt (st.elapsedTime * 1000) ++ "秒\n")
        ++ ("- **总令牌数:** " ++ toString (st.totalTokens + 0) ++ " (输入 "
            ++ toString st.totalTokens ++ ", 输出 " ++ toString 0 ++ ")\n"),
      ?_⟩
    show copyAsMarkdown durFmt costFmt agentName tsk mo date
        (st.messages ++ [stopMessage st.elapsedTime st.totalTokens]) = _
    rw [copyAsMarkdown, List.foldl_append]
    simp only [List.foldl_cons, List.foldl_nil]
    rw [show mdSection durFmt costFmt (stopMessage st.elapsedTime st.totalTokens)
        = "## 执行结果\n\n" ++ ("执行已被用户停止" ++ "\n\n") ++ "" ++ ""
            ++ ("- **持续时间:** " ++ durFmt (st.elapsedTime * 1000) ++ "秒\n")
            ++ ""
            ++ ("- **总令牌数:** " ++ toString (st.totalTokens + 0) ++ " (输入 "
                ++ toString st.totalTokens ++ ", 输出 " ++ toString 0 ++ ")\n")
        from rfl]
    rw [copyAsMarkdown]
    simp only [str_append_assoc, str_append_empty, str_empty_append]

end Claudia
